import Mathlib

/-!
Shallow embedding of the Landroid Cloud integration
(`custom_components/landroid_cloud/__init__.py` and
`custom_components/landroid_cloud/device_base.py`).

Conventions of the embedding:
* Python `None` / a missing attribute is `Option.none`.
* A raised exception that aborts an operation is `Except.error msg`;
  `Except.ok v` means the operation completed and (for the schedule
  service) performed exactly one `device.send` with payload `v`.
* The opaque cloud device handle (`pyworxcloud.WorxCloud`) is the record
  `WorxCloud` below: a generic property bag plus the fields the code
  reads directly.
* `ERROR_TO_DESCRIPTION` (external, from `pyworxcloud.states`) and
  `STATE_MAP` (from the repository's `const.py`, which is not part of
  the sources) are taken as parameters (`errDesc`, `sm`).
-/

/-- State string `STATE_INITIALIZING`. Modelled from the spec: `const.py` is
not under the sources; the spec names the state "Initializing". -/
def STATE_INITIALIZING : String := "initializing"

/-- State string `STATE_OFFLINE`. Modelled from the spec: `const.py` is not
under the sources; the spec names the state "Offline". -/
def STATE_OFFLINE : String := "offline"

/-- State string `STATE_RAINDELAY`. Modelled from the spec: `const.py` is not
under the sources; the spec names the state "RainDelay". -/
def STATE_RAINDELAY : String := "rain_delay"

/-- State string `STATE_MOWING`. Modelled from the spec: `const.py` is not
under the sources; the spec names the state "Mowing". -/
def STATE_MOWING : String := "mowing"

/-- External constant `homeassistant.components.vacuum.STATE_ERROR`. -/
def STATE_ERROR : String := "error"

/-- External constant `homeassistant.components.vacuum.STATE_DOCKED`. -/
def STATE_DOCKED : String := "docked"

/-- External constant `homeassistant.components.vacuum.STATE_RETURNING`. -/
def STATE_RETURNING : String := "returning"

/-- One stored per-day entry of `device.schedules[type][day]`: the
device-reported start, duration and boundary flag (`device_base.py`
lines 454-461 read exactly the keys "start", "duration", "boundary"). -/
structure StoredDay where
  start : Int
  duration : Int
  boundary : Bool
deriving DecidableEq, Repr

/-- The opaque cloud device handle (`pyworxcloud.WorxCloud`), restricted to
what `device_base.py` and `__init__.py` read from it.  `props` is the
generic attribute bag walked by `ATTR_MAP`; a key that is missing
(`hasattr` false) or bound to Python `None` is `none` here — the code
skips it in both cases (`device_base.py` lines 175-178). -/
structure WorxCloud where
  props : String → Option String
  online : Bool
  error : Option Int
  status : Int
  zone : Option (List Int)
  serial : Option String
  battery_percent : Option Int
  schedules : String → String → StoredDay

/-- Local entity state touched by `LandroidCloudBaseEntity.async_update`:
attribute shadow, availability, operating state, serial, battery. -/
structure BaseEntity where
  attributes : String → Option String
  available : Bool
  attr_state : String
  serialnumber : Option String
  battery_level : Option Int

/-- Sequential insertion of key/value pairs into a string map: the effect of
building the Python dict `data` by assignments and then calling
`self._attributes.update(data)` (later assignments to the same key win). -/
def applyData : (String → Option String) → List (String × String) → String → Option String
  | m, [], k => m k
  | m, kv :: rest, k => applyData (fun q => if q = kv.1 then some kv.2 else m q) rest k

/-- Operating-state derivation of `LandroidCloudBaseEntity.async_update`
(`device_base.py` lines 185-198), translated branch for branch:
`state = STATE_INITIALIZING`; `if not online` → offline; `elif error is not
None and error > 0` → the inner error/rain-delay split; `else` → the
`STATE_MAP` lookup with the `KeyError` fallback to initializing. -/
def deriveState (sm : Int → Option String) (online : Bool) (error : Option Int) (status : Int) : String :=
  if !online then STATE_OFFLINE
  else
    match error with
    | some e =>
      if 0 < e then
        if 0 < e ∧ e ≠ 5 then STATE_ERROR
        else if e = 5 then STATE_RAINDELAY
        else STATE_INITIALIZING
      else (sm status).getD STATE_INITIALIZING
    | none => (sm status).getD STATE_INITIALIZING

/-- `LandroidCloudBaseEntity.async_update` (`device_base.py` lines 166-210):
copy every present, non-None property of the `ATTR_MAP` table into `data`
under its mapped name, unconditionally set `data["error"]` to
`ERROR_TO_DESCRIPTION[master.error or 0]`, merge `data` into the attribute
shadow, recompute availability, the operating state, serial and battery.
`attrMap` is the `ATTR_MAP["default"]["state"]` table (property name,
attribute name); `errDesc` is the external `ERROR_TO_DESCRIPTION` table;
`sm` is the `STATE_MAP` status table. -/
def async_update (attrMap : List (String × String)) (errDesc : Int → String)
    (sm : Int → Option String) (master : WorxCloud) (e : BaseEntity) : BaseEntity :=
  let data : List (String × String) :=
    attrMap.filterMap (fun pa => (master.props pa.1).map (fun v => (pa.2, v)))
      ++ [("error", errDesc (master.error.getD 0))]
  { attributes := applyData e.attributes data
    available := master.online
    attr_state := deriveState sm master.online master.error master.status
    serialnumber := master.serial
    battery_level := master.battery_percent }

/-- The operating-state precedence chain exactly as the specification words
it: offline first; then error code present, positive and different from 5;
then error code equal to 5; otherwise the status-table lookup falling back
to Initializing. Written from the spec for comparison with `deriveState`. -/
def specOperatingState (sm : Int → Option String) (online : Bool) (error : Option Int) (status : Int) : String :=
  if online = false then STATE_OFFLINE
  else
    match error with
    | some e =>
      if 0 < e ∧ e ≠ 5 then STATE_ERROR
      else if e = 5 then STATE_RAINDELAY
      else (sm status).getD STATE_INITIALIZING
    | none => (sm status).getD STATE_INITIALIZING

/-- `LandroidCloudSelectZoneEntity._update_zone` (`device_base.py` lines
258-276): read `device.zone` (an exception yields `[]`, modelled by
`master.zone = none`); when the array has length exactly 4, rebuild the
options as `["0"]` followed by `str(idx)` for each `idx` in `range(1, 4)`
whose slot is non-zero; otherwise leave the prior options untouched.
The function is total: no error is ever propagated to the caller. -/
def update_zone (master : WorxCloud) (prior : List String) : List String :=
  let zones := master.zone.getD []
  if zones.length = 4 then
    (List.range' 1 3).foldl
      (fun opts idx => if zones.getD idx 0 != 0 then opts ++ [toString idx] else opts)
      ["0"]
  else prior

/-- `LandroidCloudMowerBase.async_return_to_base` (`device_base.py` lines
407-412): dispatch `device.home()` only when the entity state is not in
`[STATE_DOCKED, STATE_RETURNING]`. The Bool records whether `home()` was
dispatched; the entity is returned to expose that no local state changes. -/
def async_return_to_base (e : BaseEntity) : Bool × BaseEntity :=
  if ¬ (e.attr_state ∈ [STATE_DOCKED, STATE_RETURNING]) then (true, e) else (false, e)

/-- `LandroidCloudMowerBase.async_stop` (`device_base.py` lines 414-416):
an alias that delegates to `async_return_to_base`. -/
def async_stop (e : BaseEntity) : Bool × BaseEntity :=
  async_return_to_base e

/-- Outcome of `_setup` in `__init__.py`: the returned Bool, the device
adapter indices registered in `hass.data`, and whether the account data
entry was stored. -/
structure SetupResult where
  ok : Bool
  registered : List Nat
  dataStored : Bool

/-- `_setup` (`__init__.py` lines 79-129): `initialize()` returning a falsy
result aborts with `False` before anything is stored; `enumerate()` is
wrapped in a broad try/except whose handler logs and returns `False`
(modelled by `devices = .error msg`); otherwise the account entry is
stored and one device adapter per enumerated index is registered. -/
def _setup (auth : Bool) (devices : Except String Nat) : SetupResult :=
  if !auth then ⟨false, [], false⟩
  else
    match devices with
    | .error _ => ⟨false, [], false⟩
    | .ok n => ⟨true, List.range n, true⟩

/-- Day-key record of one `SCHEDULE_TO_DAY` entry: the service-data key of
the start time, of the end time, of the boundary flag, and the plain day
name (the `"clear"` field used in error messages and schedule lookups). -/
structure DayKeys where
  start : String
  endKey : String
  boundary : String
  clear : String
deriving DecidableEq

/-- Modelled from the spec: `const.py` is not under the sources.
`SCHEDULE_TO_DAY` maps each of the 7 weekdays to its service-data key
names and plain name; `async_set_schedule` iterates it in order. -/
def SCHEDULE_TO_DAY : List DayKeys :=
  [⟨"monday_start", "monday_end", "monday_boundary", "monday"⟩,
   ⟨"tuesday_start", "tuesday_end", "tuesday_boundary", "tuesday"⟩,
   ⟨"wednesday_start", "wednesday_end", "wednesday_boundary", "wednesday"⟩,
   ⟨"thursday_start", "thursday_end", "thursday_boundary", "thursday"⟩,
   ⟨"friday_start", "friday_end", "friday_boundary", "friday"⟩,
   ⟨"saturday_start", "saturday_end", "saturday_boundary", "saturday"⟩,
   ⟨"sunday_start", "sunday_end", "sunday_boundary", "sunday"⟩]

/-- Modelled from the spec: `const.py` is not under the sources.
`SCHEDULE_TYPE_MAP` maps the two schedule types to their wire keys; the
spec only requires two distinct keys inside the `"sc"` document. -/
def SCHEDULE_TYPE_MAP (t : String) : String :=
  if t = "secondary" then "dd" else "d"

/-- Service-call data of the set-schedule service: time-valued entries
(minutes since midnight) under the day start/end keys, and the boolean
boundary-cut flags. A key not supplied by the user maps to `none`. -/
structure ServiceData where
  times : String → Option Int
  flags : String → Bool

/-- Modelled from the spec: `utils.parseday` is not under the sources. It
derives the wire triple of a user-supplied day: start, duration computed
as end minus start in minutes, and the boundary flag as 1 or 0. -/
def parseday (d : DayKeys) (sd : ServiceData) : List Int :=
  let s := (sd.times d.start).getD 0
  let e := (sd.times d.endKey).getD 0
  [s, e - s, if sd.flags d.boundary then 1 else 0]

/-- The device-reported triple appended by `async_set_schedule` for a day
the user did not supply (`device_base.py` lines 453-462): stored start,
stored duration, and `int(boundary)`. -/
def storedTriple (s : StoredDay) : List Int :=
  [s.start, s.duration, if s.boundary then 1 else 0]

/-- Modelled from the spec: `utils.pass_thru` is not under the sources. It
copies the current schedule of one type through unchanged as wire triples,
in the day order of `SCHEDULE_TO_DAY`. -/
def pass_thru (sched : String → StoredDay) : List (List Int) :=
  SCHEDULE_TO_DAY.map (fun d => storedTriple (sched d.clear))

/-- The per-day loop of `async_set_schedule` (`device_base.py` lines
441-462), in iteration order: a day whose start key is present in the
service data but whose end key is not raises `HomeAssistantError`
(`"No end time specified for <day>"`); a fully supplied day is encoded by
`parseday`; an unsupplied day passes the device-reported triple through. -/
def encodeDays (t : String) (sd : ServiceData) (scheds : String → String → StoredDay) :
    List DayKeys → Except String (List (List Int))
  | [] => .ok []
  | d :: rest =>
    if (sd.times d.start).isSome then
      if (sd.times d.endKey).isSome then
        match encodeDays t sd scheds rest with
        | .ok r => .ok (parseday d sd :: r)
        | .error msg => .error msg
      else .error ("No end time specified for " ++ d.clear)
    else
      match encodeDays t sd scheds rest with
      | .ok r => .ok (storedTriple (scheds t d.clear) :: r)
      | .error msg => .error msg

/-- An ordered key/value document, mirroring a Python dict in insertion
order: the schedule body mapping wire keys to day-triple lists. -/
abbrev WireSchedule := List (String × List (List Int))

/-- The full wire document sent to the device. -/
abbrev WireDoc := List (String × WireSchedule)

/-- `LandroidCloudMowerBase.async_set_schedule` (`device_base.py` lines
425-475). `.ok w` means the document `w` was sent to the device with
exactly one `device.send`; `.error msg` means `HomeAssistantError msg` was
raised before any send (the device and its stored schedules are inputs
only and are never mutated). The document is `{"sc": schedule}` where
`schedule` holds the pass-through primary first when editing secondary,
then the edited type's day list, then the pass-through secondary when
editing primary. -/
def async_set_schedule (t : String) (sd : ServiceData) (device : WorxCloud) :
    Except String WireDoc :=
  let base : WireSchedule :=
    if t = "secondary" then
      [(SCHEDULE_TYPE_MAP "primary", pass_thru (device.schedules "primary"))]
    else []
  match encodeDays t sd device.schedules SCHEDULE_TO_DAY with
  | .error msg => .error msg
  | .ok days =>
    let schedule := base ++ [(SCHEDULE_TYPE_MAP t, days)]
    let schedule2 :=
      if t = "primary" then
        schedule ++ [(SCHEDULE_TYPE_MAP "secondary", pass_thru (device.schedules "secondary"))]
      else schedule
    .ok [("sc", schedule2)]

/-- Modelled from the spec: `attribute_map.py` is not under the sources.
The spec describes a static property→attribute-name table over the device
shadow fields without enumerating its entries; this is a representative
table over fields the spec names. The error description is written by
`async_update` itself under the key `"error"`, not by the table. -/
def ATTR_MAP_state : List (String × String) :=
  [("firmware_version", "firmware"), ("mac", "mac_address"),
   ("board", "board"), ("zone_probability", "zone_probability")]

/-- A concrete stand-in for the external `ERROR_TO_DESCRIPTION` table. -/
def errDescEx : Int → String :=
  fun n => if n = 0 then "No error" else "Error " ++ toString n

/-- A concrete stand-in for the `STATE_MAP` status table. -/
def smEx : Int → Option String :=
  fun n => if n = 1 then some STATE_DOCKED else if n = 7 then some STATE_MOWING else none

/-- A concrete device handle: online, no error, all bag properties absent,
constant stored schedules. -/
def masterStale : WorxCloud :=
  { props := fun _ => none
    online := true
    error := none
    status := 1
    zone := none
    serial := none
    battery_percent := none
    schedules := fun _ _ => ⟨0, 60, false⟩ }

/-- A concrete entity whose attribute shadow holds a stale error
description and a stale MAC value. -/
def entStale : BaseEntity :=
  { attributes := fun k =>
      if k = "error" then some "stale description"
      else if k = "mac_address" then some "aa:bb:cc" else none
    available := true
    attr_state := STATE_DOCKED
    serialnumber := none
    battery_level := none }

/-- A concrete device with zone telemetry `[0, 5, 0, 7]`. -/
def masterZone : WorxCloud :=
  { masterStale with zone := some [0, 5, 0, 7] }

/-- A concrete device with malformed (length-2) zone telemetry. -/
def masterShort : WorxCloud :=
  { masterStale with zone := some [1, 2] }

/-- Service data supplying a start and an end time for Monday only. -/
def sdMonday : ServiceData :=
  ⟨fun k => if k = "monday_start" then some 480
            else if k = "monday_end" then some 540 else none,
   fun _ => false⟩

/-- Service data supplying a start time for Monday and no end time. -/
def sdBad : ServiceData :=
  ⟨fun k => if k = "monday_start" then some 480 else none, fun _ => false⟩

/-- The day list produced for a Monday-only primary edit on `masterStale`. -/
def daysEx : List (List Int) :=
  [[480, 60, 0], [0, 60, 0], [0, 60, 0], [0, 60, 0], [0, 60, 0], [0, 60, 0], [0, 60, 0]]

/-- The pass-through triple list of `masterStale`'s constant schedule. -/
def passEx : List (List Int) :=
  [[0, 60, 0], [0, 60, 0], [0, 60, 0], [0, 60, 0], [0, 60, 0], [0, 60, 0], [0, 60, 0]]

/-- The wire document of a Monday-only primary edit on `masterStale`. -/
def wEx : WireDoc := [("sc", [("d", daysEx), ("dd", passEx)])]

lemma deriveState_eq_spec (sm : Int → Option String) (online : Bool) (error : Option Int) (status : Int) :
    deriveState sm online error status = specOperatingState sm online error status := by
  cases online with
  | false => rfl
  | true =>
    cases error with
    | none => rfl
    | some e =>
      show (if 0 < e then
              if 0 < e ∧ e ≠ 5 then STATE_ERROR
              else if e = 5 then STATE_RAINDELAY
              else STATE_INITIALIZING
            else (sm status).getD STATE_INITIALIZING)
          = (if 0 < e ∧ e ≠ 5 then STATE_ERROR
             else if e = 5 then STATE_RAINDELAY
             else (sm status).getD STATE_INITIALIZING)
      split_ifs <;> first | rfl | omega

/-- C1: for every property bag read during an update cycle, the derived
operating state follows the precedence offline, then error (present, > 0,
≠ 5), then rain delay (error = 5), then the status-table mapping with an
Initializing fallback for unknown status codes. -/
theorem c1_operating_state_precedence (attrMap : List (String × String))
    (errDesc : Int → String) (sm : Int → Option String) (master : WorxCloud) (e : BaseEntity) :
    (async_update attrMap errDesc sm master e).attr_state
      = specOperatingState sm master.online master.error master.status := by
  simp only [async_update]
  exact deriveState_eq_spec sm master.online master.error master.status

/-- C10: the home() call is dispatched if and only if the entity state is
neither Docked nor Returning; otherwise the command is a silent no-op that
changes no local state, and stop delegates to return-to-base. -/
theorem c10_return_to_base (e : BaseEntity) :
    ((async_return_to_base e).1 = true ↔
      (e.attr_state ≠ STATE_DOCKED ∧ e.attr_state ≠ STATE_RETURNING))
    ∧ (async_return_to_base e).2 = e
    ∧ async_stop e = async_return_to_base e := by
  refine ⟨?_, ?_, rfl⟩
  · unfold async_return_to_base
    by_cases h : e.attr_state ∈ [STATE_DOCKED, STATE_RETURNING]
    · rw [if_neg (not_not_intro h)]
      simp only [List.mem_cons, List.mem_singleton, List.not_mem_nil, or_false] at h
      constructor
      · intro hf
        exact Bool.noConfusion hf
      · intro hc
        exfalso
        rcases h with h | h
        · exact hc.1 h
        · exact hc.2 h
    · rw [if_pos h]
      simp only [List.mem_cons, List.mem_singleton, List.not_mem_nil, or_false, not_or] at h
      exact ⟨fun _ => h, fun _ => rfl⟩
  · unfold async_return_to_base
    split_ifs <;> rfl

/-- C9: a falsy initialize() result or a raised enumerate() exception makes
setup return False without raising, without storing the account entry and
without registering any device adapter. -/
theorem c9_setup_failure (auth : Bool) (devices : Except String Nat)
    (h : auth = false ∨ ∃ msg, devices = .error msg) :
    _setup auth devices = ⟨false, [], false⟩ := by
  rcases h with h | ⟨msg, h⟩
  · subst h
    rfl
  · subst h
    cases auth <;> rfl

/-- Witness for C9 at both failure modes: failed authentication with a
successful enumeration, and successful authentication with a raised
enumeration. -/
theorem c9_setup_failure_witness :
    _setup false (.ok 2) = ⟨false, [], false⟩
    ∧ _setup true (.error "API error") = ⟨false, [], false⟩ :=
  ⟨c9_setup_failure false (.ok 2) (Or.inl rfl),
   c9_setup_failure true (.error "API error") (Or.inr ⟨"API error", rfl⟩)⟩

/-- C5: for a zone array of length exactly 4 the recomputed options equal
"0" followed by the string of each index in (1,2,3) whose slot is
non-zero, in increasing order; in particular the options begin with "0". -/
theorem c5_zone_options (master : WorxCloud) (prior : List String) (zones : List Int)
    (hz : master.zone = some zones) (hlen : zones.length = 4) :
    update_zone master prior
      = "0" :: (([1, 2, 3].filter (fun idx => zones.getD idx 0 != 0)).map
          (fun idx => toString idx))
    ∧ (update_zone master prior).head? = some "0" := by
  have h : update_zone master prior
      = "0" :: (([1, 2, 3].filter (fun idx => zones.getD idx 0 != 0)).map
          (fun idx => toString idx)) := by
    unfold update_zone
    rw [hz]
    simp only [Option.getD_some]
    rw [if_pos hlen]
    show List.foldl _ ["0"] [1, 2, 3] = _
    simp only [List.foldl, List.filter, List.map]
    rcases Bool.dichotomy (zones.getD 1 0 != 0) with hb1 | hb1 <;>
      rcases Bool.dichotomy (zones.getD 2 0 != 0) with hb2 | hb2 <;>
      rcases Bool.dichotomy (zones.getD 3 0 != 0) with hb3 | hb3 <;>
      (simp only [hb1, hb2, hb3]; rfl)
  exact ⟨h, by rw [h]; rfl⟩

/-- Witness for C5 at the spec's example array [0,5,0,7], whose options
evaluate to ["0","1","3"]. -/
theorem c5_zone_options_witness :
    update_zone masterZone []
      = "0" :: (([1, 2, 3].filter (fun idx => ([0, 5, 0, 7] : List Int).getD idx 0 != 0)).map
          (fun idx => toString idx))
    ∧ (update_zone masterZone []).head? = some "0" :=
  c5_zone_options masterZone [] [0, 5, 0, 7] rfl rfl

/-- C6: a zone recompute with an array whose length differs from 4, or
whose read raised, leaves the previously stored options unchanged. -/
theorem c6_zone_noop (master : WorxCloud) (prior : List String)
    (h : master.zone = none ∨ ∀ zs, master.zone = some zs → zs.length ≠ 4) :
    update_zone master prior = prior := by
  unfold update_zone
  cases hz : master.zone with
  | none => rfl
  | some zs =>
    rcases h with h | h
    · rw [h] at hz
      exact Option.noConfusion hz
    · simp only [Option.getD_some]
      rw [if_neg (h zs hz)]

/-- Witness for C6 at both failure modes: a length-2 array and an
unreadable zone bag, each preserving the prior options ["0","2"]. -/
theorem c6_zone_noop_witness :
    update_zone masterShort ["0", "2"] = ["0", "2"]
    ∧ update_zone masterStale ["0", "2"] = ["0", "2"] :=
  ⟨c6_zone_noop masterShort ["0", "2"]
      (Or.inr (fun zs hz => by rw [← Option.some.inj hz]; decide)),
   c6_zone_noop masterStale ["0", "2"] (Or.inl rfl)⟩

lemma applyData_append (l₁ l₂ : List (String × String)) :
    ∀ (m : String → Option String) (k : String),
      applyData m (l₁ ++ l₂) k = applyData (applyData m l₁) l₂ k := by
  induction l₁ with
  | nil => intro m k; rfl
  | cons kv t ih =>
    intro m k
    exact ih (fun q => if q = kv.1 then some kv.2 else m q) k

lemma applyData_of_not_mem (l : List (String × String)) :
    ∀ (m : String → Option String) (k : String),
      (∀ kv ∈ l, kv.1 ≠ k) → applyData m l k = m k := by
  induction l with
  | nil => intro m k _; rfl
  | cons kv t ih =>
    intro m k h
    have h1 : kv.1 ≠ k := h kv (List.mem_cons_self kv t)
    have h2 := ih (fun q => if q = kv.1 then some kv.2 else m q) k
      (fun kv2 hm => h kv2 (List.mem_cons_of_mem kv hm))
    calc applyData m (kv :: t) k
        = applyData (fun q => if q = kv.1 then some kv.2 else m q) t k := rfl
      _ = (if k = kv.1 then some kv.2 else m k) := h2
      _ = m k := if_neg (fun p => h1 p.symm)

lemma async_update_attributes_eq (attrMap : List (String × String)) (errDesc : Int → String)
    (sm : Int → Option String) (master : WorxCloud) (e : BaseEntity) (k : String) :
    (async_update attrMap errDesc sm master e).attributes k
      = (if k = "error" then some (errDesc (master.error.getD 0))
         else applyData e.attributes
           (attrMap.filterMap (fun pa => (master.props pa.1).map (fun v => (pa.2, v)))) k) := by
  show applyData e.attributes
      (attrMap.filterMap (fun pa => (master.props pa.1).map (fun v => (pa.2, v)))
        ++ [("error", errDesc (master.error.getD 0))]) k = _
  rw [applyData_append]
  rfl

/-- C8: the error-description attribute is `errDesc` applied to the error
code with Python's `or 0` coercion; an absent (None) and a zero error code
both use index 0 and yield the same description. -/
theorem c8_error_description (attrMap : List (String × String)) (errDesc : Int → String)
    (sm : Int → Option String) (master : WorxCloud) (e : BaseEntity) :
    (async_update attrMap errDesc sm master e).attributes "error"
      = some (errDesc (master.error.getD 0))
    ∧ ((master.error = none ∨ master.error = some 0) →
        (async_update attrMap errDesc sm master e).attributes "error" = some (errDesc 0)) := by
  have h := async_update_attributes_eq attrMap errDesc sm master e "error"
  rw [if_pos rfl] at h
  refine ⟨h, ?_⟩
  intro hc
  rcases hc with hc | hc <;> rw [h, hc] <;> rfl

/-- Witness for C8: with every bag property absent and no error code, the
attribute under "error" is the table's index-0 entry. -/
theorem c8_error_description_witness :
    (async_update ATTR_MAP_state errDescEx smEx masterStale entStale).attributes "error"
      = some (errDescEx 0) :=
  (c8_error_description ATTR_MAP_state errDescEx smEx masterStale entStale).2 (Or.inl rfl)

/-- C7 counterexample: the claim states that attributes outside the
property→attribute-name table are never touched, but `async_update`
overwrites the "error" attribute on every cycle even though no table entry
maps to it: with every source property absent, the stale prior value under
"error" is replaced. -/
theorem c7_counterexample :
    (∀ pa ∈ ATTR_MAP_state, pa.2 ≠ "error")
    ∧ entStale.attributes "error" = some "stale description"
    ∧ (async_update ATTR_MAP_state errDescEx smEx masterStale entStale).attributes "error"
        = some "No error" := by
  refine ⟨by decide, rfl, rfl⟩

/-- C7 (amended): an attribute entry is overwritten only when some table
entry maps a present, non-None property to it — entries all of whose source
properties are absent, and entries outside the table, keep their previous
value — except the error-description entry under the key "error", which is
recomputed and overwritten on every update cycle. -/
theorem c7_sticky_attributes (attrMap : List (String × String)) (errDesc : Int → String)
    (sm : Int → Option String) (master : WorxCloud) (e : BaseEntity) (k : String) :
    (k ≠ "error" → (∀ p, (p, k) ∈ attrMap → master.props p = none) →
      (async_update attrMap errDesc sm master e).attributes k = e.attributes k)
    ∧ (async_update attrMap errDesc sm master e).attributes "error"
        = some (errDesc (master.error.getD 0)) := by
  constructor
  · intro hk habs
    have h := async_update_attributes_eq attrMap errDesc sm master e k
    rw [if_neg hk] at h
    rw [h]
    apply applyData_of_not_mem
    intro kv hkv hkk
    rcases List.mem_filterMap.mp hkv with ⟨pa, hpa, hf⟩
    cases hp : master.props pa.1 with
    | none =>
      rw [hp] at hf
      exact Option.noConfusion hf
    | some v =>
      rw [hp] at hf
      have hkv2 : (pa.2, v) = kv := Option.some.inj hf
      have h2 : pa.2 = k := by rw [← hkv2] at hkk; exact hkk
      have hmem : (pa.1, k) ∈ attrMap := by rw [← h2]; exact hpa
      have := habs pa.1 hmem
      rw [this] at hp
      exact Option.noConfusion hp
  · have h := async_update_attributes_eq attrMap errDesc sm master e "error"
    rw [if_pos rfl] at h
    exact h

/-- Witness for C7 (amended): the stale MAC attribute, whose only source
property is absent, survives the update unchanged. -/
theorem c7_sticky_attributes_witness :
    (async_update ATTR_MAP_state errDescEx smEx masterStale entStale).attributes "mac_address"
      = entStale.attributes "mac_address" :=
  (c7_sticky_attributes ATTR_MAP_state errDescEx smEx masterStale entStale "mac_address").1
    (by decide) (fun p _ => rfl)

lemma encodeDays_error_of_missing_end (t : String) (sd : ServiceData)
    (scheds : String → String → StoredDay) :
    ∀ l : List DayKeys,
      (∃ d ∈ l, (sd.times d.start).isSome = true ∧ sd.times d.endKey = none) →
      ∃ d ∈ l, (sd.times d.start).isSome = true ∧ sd.times d.endKey = none ∧
        encodeDays t sd scheds l = .error ("No end time specified for " ++ d.clear) := by
  intro l
  induction l with
  | nil =>
    rintro ⟨d, hd, -⟩
    exact absurd hd (List.not_mem_nil d)
  | cons d0 rest ih =>
    rintro ⟨d, hd, hs, he⟩
    by_cases h0 : (sd.times d0.start).isSome = true ∧ sd.times d0.endKey = none
    · refine ⟨d0, List.mem_cons_self d0 rest, h0.1, h0.2, ?_⟩
      have hne : ¬((sd.times d0.endKey).isSome = true) := by
        intro hcon
        rw [h0.2] at hcon
        exact Bool.noConfusion hcon
      unfold encodeDays
      rw [if_pos h0.1, if_neg hne]
    · have hd' : d ∈ rest := by
        rcases List.mem_cons.mp hd with h | h
        · exact absurd (h ▸ ⟨hs, he⟩) h0
        · exact h
      rcases ih ⟨d, hd', hs, he⟩ with ⟨d2, hd2, hs2, he2, herr⟩
      refine ⟨d2, List.mem_cons_of_mem d0 hd2, hs2, he2, ?_⟩
      by_cases hs0 : (sd.times d0.start).isSome = true
      · have hend : (sd.times d0.endKey).isSome = true := by
          cases hE : sd.times d0.endKey with
          | none => exact absurd ⟨hs0, hE⟩ h0
          | some v => rfl
        unfold encodeDays
        rw [if_pos hs0, if_pos hend, herr]
      · unfold encodeDays
        rw [if_neg hs0, herr]

lemma encodeDays_ok_get (t : String) (sd : ServiceData)
    (scheds : String → String → StoredDay) :
    ∀ (l : List DayKeys) (r : List (List Int)), encodeDays t sd scheds l = .ok r →
      ∀ (i : Nat) (d : DayKeys), l.get? i = some d → sd.times d.start = none →
        r.get? i = some (storedTriple (scheds t d.clear)) := by
  intro l
  induction l with
  | nil =>
    intro r hr i d hget hnone
    simp [List.get?] at hget
  | cons d0 rest ih =>
    intro r hr i d hget hnone
    by_cases hs0 : (sd.times d0.start).isSome = true
    · by_cases hend : (sd.times d0.endKey).isSome = true
      · unfold encodeDays at hr
        rw [if_pos hs0, if_pos hend] at hr
        cases hrest : encodeDays t sd scheds rest with
        | error msg =>
          rw [hrest] at hr
          exact Except.noConfusion hr
        | ok r2 =>
          rw [hrest] at hr
          have hr2 : parseday d0 sd :: r2 = r := Except.ok.inj hr
          cases i with
          | zero =>
            have hd : d0 = d := by
              rw [List.get?_cons_zero] at hget
              exact Option.some.inj hget
            rw [← hd] at hnone
            rw [hnone] at hs0
            exact Bool.noConfusion hs0
          | succ n =>
            have hstep : r.get? (n + 1) = r2.get? n := by rw [← hr2]; rfl
            rw [hstep]
            exact ih r2 hrest n d (by simpa using hget) hnone
      · unfold encodeDays at hr
        rw [if_pos hs0, if_neg hend] at hr
        exact Except.noConfusion hr
    · unfold encodeDays at hr
      rw [if_neg hs0] at hr
      cases hrest : encodeDays t sd scheds rest with
      | error msg =>
        rw [hrest] at hr
        exact Except.noConfusion hr
      | ok r2 =>
        rw [hrest] at hr
        have hr2 : storedTriple (scheds t d0.clear) :: r2 = r := Except.ok.inj hr
        cases i with
        | zero =>
          have hd : d0 = d := by
            rw [List.get?_cons_zero] at hget
            exact Option.some.inj hget
          rw [← hr2, List.get?_cons_zero, hd]
        | succ n =>
          have hstep : r.get? (n + 1) = r2.get? n := by rw [← hr2]; rfl
          rw [hstep]
          exact ih r2 hrest n d (by simpa using hget) hnone

/-- C2: a schedule edit in which some weekday has a start time but no end
time fails with `HomeAssistantError` naming an offending day, before any
send; the device (and its stored schedules) is a read-only input here, so
nothing stored is modified. -/
theorem c2_missing_end_aborts (t : String) (sd : ServiceData) (device : WorxCloud)
    (h : ∃ d ∈ SCHEDULE_TO_DAY, (sd.times d.start).isSome = true ∧ sd.times d.endKey = none) :
    ∃ d ∈ SCHEDULE_TO_DAY, (sd.times d.start).isSome = true ∧ sd.times d.endKey = none ∧
      async_set_schedule t sd device = .error ("No end time specified for " ++ d.clear) := by
  rcases encodeDays_error_of_missing_end t sd device.schedules SCHEDULE_TO_DAY h with
    ⟨d, hd, hs, he, herr⟩
  refine ⟨d, hd, hs, he, ?_⟩
  unfold async_set_schedule
  rw [herr]

/-- Witness for C2: a primary edit supplying only a Monday start time
aborts with the Monday error message. -/
theorem c2_missing_end_aborts_witness :
    ∃ d ∈ SCHEDULE_TO_DAY, (sdBad.times d.start).isSome = true ∧ sdBad.times d.endKey = none ∧
      async_set_schedule "primary" sdBad masterStale
        = .error ("No end time specified for " ++ d.clear) :=
  c2_missing_end_aborts "primary" sdBad masterStale
    ⟨⟨"monday_start", "monday_end", "monday_boundary", "monday"⟩, by decide, rfl, rfl⟩

/-- C3: every successful edit sends a document wrapped under the single
top-level key "sc" containing both schedule types: editing primary keeps
the stored secondary schedule appended unchanged after the new primary
data; editing secondary copies the stored primary schedule through
unchanged before the new secondary data. -/
theorem c3_full_document (t : String) (sd : ServiceData) (device : WorxCloud) (w : WireDoc)
    (hok : async_set_schedule t sd device = .ok w) :
    (t = "primary" → ∃ days, w = [("sc",
        [(SCHEDULE_TYPE_MAP "primary", days),
         (SCHEDULE_TYPE_MAP "secondary", pass_thru (device.schedules "secondary"))])])
    ∧ (t = "secondary" → ∃ days, w = [("sc",
        [(SCHEDULE_TYPE_MAP "primary", pass_thru (device.schedules "primary")),
         (SCHEDULE_TYPE_MAP "secondary", days)])]) := by
  constructor
  · intro ht
    subst ht
    cases henc : encodeDays "primary" sd device.schedules SCHEDULE_TO_DAY with
    | error msg =>
      unfold async_set_schedule at hok
      rw [henc] at hok
      exact Except.noConfusion hok
    | ok days =>
      have hX : async_set_schedule "primary" sd device = .ok [("sc",
          [(SCHEDULE_TYPE_MAP "primary", days),
           (SCHEDULE_TYPE_MAP "secondary", pass_thru (device.schedules "secondary"))])] := by
        unfold async_set_schedule
        rw [henc]
        rfl
      rw [hX] at hok
      exact ⟨days, (Except.ok.inj hok).symm⟩
  · intro ht
    subst ht
    cases henc : encodeDays "secondary" sd device.schedules SCHEDULE_TO_DAY with
    | error msg =>
      unfold async_set_schedule at hok
      rw [henc] at hok
      exact Except.noConfusion hok
    | ok days =>
      have hX : async_set_schedule "secondary" sd device = .ok [("sc",
          [(SCHEDULE_TYPE_MAP "primary", pass_thru (device.schedules "primary")),
           (SCHEDULE_TYPE_MAP "secondary", days)])] := by
        unfold async_set_schedule
        rw [henc]
        rfl
      rw [hX] at hok
      exact ⟨days, (Except.ok.inj hok).symm⟩

/-- Witness for C3: the Monday-only primary edit produces the full
two-schedule document under "sc". -/
theorem c3_full_document_witness :
    ∃ days, wEx = [("sc",
      [(SCHEDULE_TYPE_MAP "primary", days),
       (SCHEDULE_TYPE_MAP "secondary", pass_thru (masterStale.schedules "secondary"))])] :=
  (c3_full_document "primary" sdMonday masterStale wEx (by rfl)).1 rfl

/-- C4: in a successful edit of either type, every weekday without a
user-supplied start time contributes the device-reported triple (start,
duration, boundary flag coerced to an integer) unchanged at its position
in the edited type's day list; an edit of one day therefore preserves the
other six days' triples exactly. -/
theorem c4_day_pass_through (t : String) (sd : ServiceData) (device : WorxCloud)
    (sched : WireSchedule) (days : List (List Int)) (i : Nat) (d : DayKeys)
    (hok : async_set_schedule t sd device = .ok [("sc", sched)])
    (hlookup : List.lookup (SCHEDULE_TYPE_MAP t) sched = some days)
    (hday : SCHEDULE_TO_DAY.get? i = some d)
    (hstart : sd.times d.start = none) :
    days.get? i = some (storedTriple (device.schedules t d.clear)) := by
  cases henc : encodeDays t sd device.schedules SCHEDULE_TO_DAY with
  | error msg =>
    unfold async_set_schedule at hok
    rw [henc] at hok
    exact Except.noConfusion hok
  | ok r =>
    have hget := encodeDays_ok_get t sd device.schedules SCHEDULE_TO_DAY r henc i d hday hstart
    suffices hdr : days = r by rw [hdr]; exact hget
    by_cases hsec : t = "secondary"
    · subst hsec
      have hX : async_set_schedule "secondary" sd device = .ok [("sc",
          [(SCHEDULE_TYPE_MAP "primary", pass_thru (device.schedules "primary")),
           (SCHEDULE_TYPE_MAP "secondary", r)])] := by
        unfold async_set_schedule
        rw [henc]
        rfl
      rw [hX] at hok
      have hs := Except.ok.inj hok
      have hs2 : [(SCHEDULE_TYPE_MAP "primary", pass_thru (device.schedules "primary")),
          (SCHEDULE_TYPE_MAP "secondary", r)] = sched := by
        injection hs with h1 _
        injection h1 with _ h2
      rw [← hs2] at hlookup
      have hl : List.lookup (SCHEDULE_TYPE_MAP "secondary")
          [(SCHEDULE_TYPE_MAP "primary", pass_thru (device.schedules "primary")),
           (SCHEDULE_TYPE_MAP "secondary", r)] = some r := rfl
      rw [hl] at hlookup
      exact (Option.some.inj hlookup).symm
    · by_cases hpri : t = "primary"
      · subst hpri
        have hX : async_set_schedule "primary" sd device = .ok [("sc",
            [(SCHEDULE_TYPE_MAP "primary", r),
             (SCHEDULE_TYPE_MAP "secondary", pass_thru (device.schedules "secondary"))])] := by
          unfold async_set_schedule
          rw [henc]
          rfl
        rw [hX] at hok
        have hs := Except.ok.inj hok
        have hs2 : [(SCHEDULE_TYPE_MAP "primary", r),
            (SCHEDULE_TYPE_MAP "secondary", pass_thru (device.schedules "secondary"))] = sched := by
          injection hs with h1 _
          injection h1 with _ h2
        rw [← hs2] at hlookup
        have hl : List.lookup (SCHEDULE_TYPE_MAP "primary")
            [(SCHEDULE_TYPE_MAP "primary", r),
             (SCHEDULE_TYPE_MAP "secondary", pass_thru (device.schedules "secondary"))]
            = some r := rfl
        rw [hl] at hlookup
        exact (Option.some.inj hlookup).symm
      · have hX : async_set_schedule t sd device = .ok [("sc", [(SCHEDULE_TYPE_MAP t, r)])] := by
          unfold async_set_schedule
          rw [henc]
          simp only [if_neg hsec, if_neg hpri, List.nil_append]
        rw [hX] at hok
        have hs := Except.ok.inj hok
        have hs2 : [(SCHEDULE_TYPE_MAP t, r)] = sched := by
          injection hs with h1 _
          injection h1 with _ h2
        rw [← hs2] at hlookup
        have hl : List.lookup (SCHEDULE_TYPE_MAP t) [(SCHEDULE_TYPE_MAP t, r)] = some r := by
          simp [List.lookup]
        rw [hl] at hlookup
        exact (Option.some.inj hlookup).symm

/-- Witness for C4: after the Monday-only primary edit, the Tuesday slot
of the sent primary day list equals the stored Tuesday triple. -/
theorem c4_day_pass_through_witness :
    daysEx.get? 1 = some (storedTriple (masterStale.schedules "primary" "tuesday")) :=
  c4_day_pass_through "primary" sdMonday masterStale [("d", daysEx), ("dd", passEx)] daysEx 1
    ⟨"tuesday_start", "tuesday_end", "tuesday_boundary", "tuesday"⟩
    (by rfl) (by rfl) (by rfl) (by rfl)
